import Mathlib

/-!
Verification development for the PDF merge-and-compress repository.

The repository's own logic is a thin orchestration layer over two external
PDF libraries.  We shallowly embed that logic:

* quality and scale parameters, byte sizes and ratios are modelled as exact
  rationals (the source manipulates them only through multiplication,
  division, comparison and clamping, all of which the floors in the source
  make robust);
* byte buffers are `List Nat`;
* external library operations (page rasterisation, JPEG embedding, PDF
  loading and saving, the filesystem) are oracle parameters of the
  embedded functions;
* fallible code returns `Except String`.
-/

/-- Stage of a progress event, from the `CompressionProgress` interface. -/
inductive Stage
  | rendering
  | compressing
  | building
deriving DecidableEq, Repr

/-- A progress event, mirroring the source's `CompressionProgress` record
with fields `stage`, `current`, `total` and optional `currentSizeMB`. -/
structure CompressionProgress where
  stage : Stage
  current : Nat
  total : Nat
  currentSizeMB : Option ℚ
deriving DecidableEq, Repr

/-- One invocation of the single-pass compressor made by the target-size
search: the parameters passed, the byte buffer passed, and the byte buffer
produced.  This is the observable trace of the loop in
`compressToTargetSize`. -/
structure Attempt where
  quality : ℚ
  scale : ℚ
  input : List Nat
  output : List Nat
deriving DecidableEq, Repr

/-- The single-pass compressor as seen by the target-size search: given
quality, scale and the input bytes it produces output bytes together with
the progress events it would emit.  In the source this is `compressPdf`;
its internals (rasterisation, JPEG encoding) are external library calls,
so the search wrapper is verified for an arbitrary compressor. -/
abbrev Compressor := ℚ → ℚ → List Nat → List Nat × List CompressionProgress

/-- The initial (quality, scale) selection of `compressToTargetSize`
(source lines 167-193): a default of (0.7, 1.0) immediately overridden by
the five-band lookup on the needed ratio `targetBytes / currentSize`. -/
def initialParams (ratio : ℚ) : ℚ × ℚ :=
  if ratio < 0.1 then (0.2, 0.4)
  else if ratio < 0.2 then (0.3, 0.5)
  else if ratio < 0.3 then (0.4, 0.6)
  else if ratio < 0.5 then (0.5, 0.75)
  else (0.7, 0.9)

/-- The `while (attempts < maxAttempts)` loop of `compressToTargetSize`
(source lines 195-225), with the remaining iteration budget as fuel.
`prev` is the current value of the source's `result` variable (the
callback wrapping `compressPdf` reads it before reassignment, so the
pass-through events carry the previous attempt's size).  Returns the final
`result`, the trace of attempts, and the emitted progress events. -/
def compressLoop (cf : Compressor) (pdfData : List Nat) (targetBytes : ℚ)
    (maxAttempts : Nat) :
    ℚ → ℚ → List Nat → Nat → Nat → List Nat × List Attempt × List CompressionProgress
  | _, _, prev, _, 0 => (prev, [], [])
  | quality, scale, prev, attempts, fuel + 1 =>
    let attempts1 := attempts + 1
    let call := cf quality scale pdfData
    let result := call.1
    let evts :=
      call.2.map (fun p =>
        { p with currentSizeMB := some ((prev.length : ℚ) / (1024 * 1024)) })
      ++ [⟨Stage.compressing, attempts1, maxAttempts,
           some ((result.length : ℚ) / (1024 * 1024))⟩]
    let att : Attempt := ⟨quality, scale, pdfData, result⟩
    if (result.length : ℚ) ≤ targetBytes then
      (result, [att], evts)
    else
      let quality2 := max (quality * 0.7) 0.1
      let scale2 := max (scale * 0.85) 0.3
      let rest := compressLoop cf pdfData targetBytes maxAttempts
        quality2 scale2 result attempts1 fuel
      (rest.1, att :: rest.2.1, evts ++ rest.2.2)

/-- `compressToTargetSize` (source lines 154-228): short-circuit when the
input is already at or under `targetSizeMB * 1024 * 1024` bytes, otherwise
pick initial parameters from the needed ratio and run the bounded search
loop with `maxAttempts = 5`. -/
def compressToTargetSize (cf : Compressor) (pdfData : List Nat)
    (targetSizeMB : ℚ) : List Nat × List Attempt × List CompressionProgress :=
  let targetBytes : ℚ := targetSizeMB * 1024 * 1024
  let currentSize : ℚ := (pdfData.length : ℚ)
  if currentSize ≤ targetBytes then (pdfData, [], [])
  else
    let ratio := targetBytes / currentSize
    let qs := initialParams ratio
    compressLoop cf pdfData targetBytes 5 qs.1 qs.2 pdfData 0 5

/-- The byte buffer returned by the target-size search. -/
def searchOutput (cf : Compressor) (pdfData : List Nat) (targetSizeMB : ℚ) :
    List Nat :=
  (compressToTargetSize cf pdfData targetSizeMB).1

/-- The trace of single-pass compressor invocations made by the
target-size search, in order. -/
def searchAttempts (cf : Compressor) (pdfData : List Nat) (targetSizeMB : ℚ) :
    List Attempt :=
  (compressToTargetSize cf pdfData targetSizeMB).2.1

/-- The progress events emitted by the target-size search, in order. -/
def searchEvents (cf : Compressor) (pdfData : List Nat) (targetSizeMB : ℚ) :
    List CompressionProgress :=
  (compressToTargetSize cf pdfData targetSizeMB).2.2

/-- The output of the last attempt in a trace (`dflt` when the trace is
empty, matching the initialisation `result = pdfData`). -/
def lastOutput (atts : List Attempt) (dflt : List Nat) : List Nat :=
  (atts.getLast?).elim dflt Attempt.output

/-- Recover a list member from a computed head. -/
theorem mem_of_head?_eq {α : Type} {l : List α} {a : α} (h : l.head? = some a) :
    a ∈ l := by
  cases l with
  | nil => simp at h
  | cons b t =>
    simp only [List.head?_cons, Option.some.injEq] at h
    simp [h]

/-- The search loop performs at most `fuel` attempts. -/
theorem compressLoop_length_le (cf : Compressor) (d : List Nat) (tb : ℚ)
    (ma : Nat) :
    ∀ (fuel : Nat) (q s : ℚ) (prev : List Nat) (att : Nat),
      (compressLoop cf d tb ma q s prev att fuel).2.1.length ≤ fuel
  | 0, _, _, _, _ => by simp [compressLoop]
  | fuel + 1, q, s, prev, att => by
    have ih := compressLoop_length_le cf d tb ma fuel
      (max (q * 0.7) 0.1) (max (s * 0.85) 0.3) (cf q s d).1 (att + 1)
    simp only [compressLoop]
    split
    · simp
    · simpa using Nat.succ_le_succ ih

/-- The floors are invariant: if the loop starts at or above them, every
attempt in the trace is at or above them. -/
theorem compressLoop_floors (cf : Compressor) (d : List Nat) (tb : ℚ)
    (ma : Nat) :
    ∀ (fuel : Nat) (q s : ℚ) (prev : List Nat) (att : Nat),
      0.1 ≤ q → 0.3 ≤ s →
      ∀ a ∈ (compressLoop cf d tb ma q s prev att fuel).2.1,
        0.1 ≤ a.quality ∧ 0.3 ≤ a.scale
  | 0, q, s, prev, att => by simp [compressLoop]
  | fuel + 1, q, s, prev, att => by
    intro hq hs a ha
    have ih := compressLoop_floors cf d tb ma fuel
      (max (q * 0.7) 0.1) (max (s * 0.85) 0.3) (cf q s d).1 (att + 1)
      (le_max_right _ _) (le_max_right _ _)
    simp only [compressLoop] at ha
    split at ha
    · simp only [List.mem_singleton] at ha
      subst ha
      exact ⟨hq, hs⟩
    · simp only [List.mem_cons] at ha
      rcases ha with rfl | ha
    
      · exact ⟨hq, hs⟩
      · exact ih a ha

/-- Every attempt in the loop's trace receives the original input bytes. -/
theorem compressLoop_inputs (cf : Compressor) (d : List Nat) (tb : ℚ)
    (ma : Nat) :
    ∀ (fuel : Nat) (q s : ℚ) (prev : List Nat) (att : Nat),
      ∀ a ∈ (compressLoop cf d tb ma q s prev att fuel).2.1, a.input = d
  | 0, q, s, prev, att => by simp [compressLoop]
  | fuel + 1, q, s, prev, att => by
    intro a ha
    have ih := compressLoop_inputs cf d tb ma fuel
      (max (q * 0.7) 0.1) (max (s * 0.85) 0.3) (cf q s d).1 (att + 1)
    simp only [compressLoop] at ha
    split at ha
    · simp only [List.mem_singleton] at ha
      subst ha
      rfl
    · simp only [List.mem_cons] at ha
      rcases ha with rfl | ha
      · rfl
      · exact ih a ha

/-- The first attempt of a loop run with positive fuel uses exactly the
parameters it was started with, on the original input. -/
theorem compressLoop_head (cf : Compressor) (d : List Nat) (tb : ℚ) (ma : Nat)
    (q s : ℚ) (prev : List Nat) (att fuel : Nat) :
    (compressLoop cf d tb ma q s prev att (fuel + 1)).2.1.head? =
      some ⟨q, s, d, (cf q s d).1⟩ := by
  simp only [compressLoop]
  split <;> simp

/-- The initial band table never selects parameters below the floors. -/
theorem initialParams_floors (r : ℚ) :
    0.1 ≤ (initialParams r).1 ∧ 0.3 ≤ (initialParams r).2 := by
  unfold initialParams
  split_ifs <;> norm_num

/-- One-step unfolding of the search loop with positive fuel. -/
theorem compressLoop_succ (cf : Compressor) (d : List Nat) (tb : ℚ) (ma : Nat)
    (q s : ℚ) (prev : List Nat) (att fuel : Nat) :
    compressLoop cf d tb ma q s prev att (fuel + 1) =
      (let result := (cf q s d).1
       let evts := (cf q s d).2.map (fun p =>
           { p with currentSizeMB := some ((prev.length : ℚ) / (1024 * 1024)) })
         ++ [⟨Stage.compressing, att + 1, ma,
              some ((result.length : ℚ) / (1024 * 1024))⟩]
       let attRec : Attempt := ⟨q, s, d, result⟩
       if (result.length : ℚ) ≤ tb then (result, [attRec], evts)
       else
         let rest := compressLoop cf d tb ma (max (q * 0.7) 0.1)
           (max (s * 0.85) 0.3) result (att + 1) fuel
         (rest.1, attRec :: rest.2.1, evts ++ rest.2.2)) := rfl

/-- If every compressor invocation on the input stays above the budget,
the loop consumes all its fuel and its result is the output of the last
attempt in its trace. -/
theorem compressLoop_exhausts (cf : Compressor) (d : List Nat) (tb : ℚ)
    (ma : Nat) (hcf : ∀ q s : ℚ, tb < ((cf q s d).1.length : ℚ)) :
    ∀ (fuel : Nat) (q s : ℚ) (prev : List Nat) (att : Nat),
      (compressLoop cf d tb ma q s prev att (fuel + 1)).2.1.length = fuel + 1 ∧
        (compressLoop cf d tb ma q s prev att (fuel + 1)).1 =
          lastOutput (compressLoop cf d tb ma q s prev att (fuel + 1)).2.1 prev
  | 0, q, s, prev, att => by
    rw [compressLoop_succ]
    simp only []
    rw [if_neg (not_le.mpr (hcf q s))]
    simp [compressLoop, lastOutput]
  | fuel + 1, q, s, prev, att => by
    have ih := compressLoop_exhausts cf d tb ma hcf fuel
      (max (q * 0.7) 0.1) (max (s * 0.85) 0.3) (cf q s d).1 (att + 1)
    rw [compressLoop_succ]
    simp only []
    rw [if_neg (not_le.mpr (hcf q s))]
    obtain ⟨b, l', hb⟩ := List.exists_cons_of_ne_nil
      (l := (compressLoop cf d tb ma (max (q * 0.7) 0.1) (max (s * 0.85) 0.3)
        (cf q s d).1 (att + 1) (fuel + 1)).2.1)
      (by
        intro hnil
        rw [hnil] at ih
        simp at ih)
    constructor
    · simp [ih.1]
    · rw [ih.2, hb]
      simp only [lastOutput]
      rcases h2 : (b :: l').getLast? with _ | x
      · exact absurd (List.getLast?_eq_none_iff.mp h2) (by simp)
      · simp [h2]

/-- A concrete compressor oracle for instantiations: ignores its
parameters and returns a fixed three-byte buffer with no events. -/
def cfThree : Compressor := fun _ _ _ => ([0, 0, 0], [])

/-- Claim C1: for every input document and target size, the target-size
search performs at most 5 compression attempts, and every attempt invokes
the single-pass compressor with quality ≥ 0.1 and scale ≥ 0.3 (the
initial band values and every post-backoff value are at or above these
floors). -/
theorem target_search_bounded_and_floored (cf : Compressor)
    (pdfData : List Nat) (targetSizeMB : ℚ) :
    (searchAttempts cf pdfData targetSizeMB).length ≤ 5 ∧
      ∀ a ∈ searchAttempts cf pdfData targetSizeMB,
        0.1 ≤ a.quality ∧ 0.3 ≤ a.scale := by
  simp only [searchAttempts, compressToTargetSize]
  split
  · simp
  · refine ⟨compressLoop_length_le cf pdfData _ 5 5 _ _ _ 0, ?_⟩
    exact compressLoop_floors cf pdfData _ 5 5 _ _ _ 0
      (initialParams_floors _).1 (initialParams_floors _).2

/-- Concrete instantiation of `target_search_bounded_and_floored`: a
two-byte input over a one-byte budget; the first attempt exists, is part
of the trace, and respects both floors. -/
theorem target_search_bounded_and_floored_witness :
    (searchAttempts cfThree [0, 0] (1 / 1048576)).length ≤ 5 ∧
      (⟨0.7, 0.9, [0, 0], [0, 0, 0]⟩ : Attempt) ∈
        searchAttempts cfThree [0, 0] (1 / 1048576) ∧
      (0.1 : ℚ) ≤ (⟨0.7, 0.9, [0, 0], [0, 0, 0]⟩ : Attempt).quality ∧
      (0.3 : ℚ) ≤ (⟨0.7, 0.9, [0, 0], [0, 0, 0]⟩ : Attempt).scale := by
  have hmem : (⟨0.7, 0.9, [0, 0], [0, 0, 0]⟩ : Attempt) ∈
      searchAttempts cfThree [0, 0] (1 / 1048576) :=
    mem_of_head?_eq (by
      simp only [searchAttempts, compressToTargetSize]
      rw [if_neg (by norm_num)]
      rw [show (5 : Nat) = 4 + 1 from rfl, compressLoop_head]
      norm_num [initialParams, cfThree])
  have h := target_search_bounded_and_floored cfThree [0, 0] (1 / 1048576)
  exact ⟨h.1, hmem, (h.2 _ hmem).1, (h.2 _ hmem).2⟩

/-- Claim C2: for every input whose size exceeds the target, the first
compression attempt of the target-size search uses the (quality, scale)
pair selected from the needed ratio r = targetBytes / currentSize by the
five-band table: r < 0.1 gives (0.20, 0.40); 0.1 ≤ r < 0.2 gives
(0.30, 0.50); 0.2 ≤ r < 0.3 gives (0.40, 0.60); 0.3 ≤ r < 0.5 gives
(0.50, 0.75); r ≥ 0.5 gives (0.70, 0.90). -/
theorem target_search_initial_band (cf : Compressor) (pdfData : List Nat)
    (targetSizeMB : ℚ)
    (h : targetSizeMB * 1024 * 1024 < (pdfData.length : ℚ)) :
    (searchAttempts cf pdfData targetSizeMB).head?.map
        (fun a => (a.quality, a.scale)) =
      some
        (if targetSizeMB * 1024 * 1024 / (pdfData.length : ℚ) < 0.1 then
          ((0.2 : ℚ), (0.4 : ℚ))
        else if targetSizeMB * 1024 * 1024 / (pdfData.length : ℚ) < 0.2 then
          (0.3, 0.5)
        else if targetSizeMB * 1024 * 1024 / (pdfData.length : ℚ) < 0.3 then
          (0.4, 0.6)
        else if targetSizeMB * 1024 * 1024 / (pdfData.length : ℚ) < 0.5 then
          (0.5, 0.75)
        else (0.7, 0.9)) := by
  simp only [searchAttempts, compressToTargetSize]
  rw [if_neg (not_le.mpr h)]
  rw [show (5 : Nat) = 4 + 1 from rfl, compressLoop_head]
  simp only [Option.map_some', initialParams]

/-- Concrete instantiation of `target_search_initial_band`: the two spec
scenarios.  A 50 MB input with a 4 MB target starts at (0.20, 0.40); a
15 MB input with a 10 MB target starts at (0.70, 0.90). -/
theorem target_search_initial_band_witness :
    (4 : ℚ) * 1024 * 1024 < ((List.replicate (50 * 1024 * 1024) 0).length : ℚ) ∧
      (searchAttempts cfThree (List.replicate (50 * 1024 * 1024) 0) 4).head?.map
          (fun a => (a.quality, a.scale)) = some ((0.2 : ℚ), (0.4 : ℚ)) ∧
      (10 : ℚ) * 1024 * 1024 <
          ((List.replicate (15 * 1024 * 1024) 0).length : ℚ) ∧
      (searchAttempts cfThree (List.replicate (15 * 1024 * 1024) 0) 10).head?.map
          (fun a => (a.quality, a.scale)) = some ((0.7 : ℚ), (0.9 : ℚ)) := by
  have h1 : (4 : ℚ) * 1024 * 1024 <
      ((List.replicate (50 * 1024 * 1024) 0).length : ℚ) := by
    simp only [List.length_replicate]
    norm_num
  have h2 : (10 : ℚ) * 1024 * 1024 <
      ((List.replicate (15 * 1024 * 1024) 0).length : ℚ) := by
    simp only [List.length_replicate]
    norm_num
  refine ⟨h1, ?_, h2, ?_⟩
  · rw [target_search_initial_band cfThree _ 4 h1]
    simp only [List.length_replicate]
    norm_num
  · rw [target_search_initial_band cfThree _ 10 h2]
    simp only [List.length_replicate]
    norm_num

/-- Claim C3: for every input whose byte length is at most
targetSizeMB * 1024 * 1024, the target-size search returns the input byte
buffer unchanged, performs no compression attempt and emits no progress
event. -/
theorem target_search_short_circuit (cf : Compressor) (pdfData : List Nat)
    (targetSizeMB : ℚ)
    (h : (pdfData.length : ℚ) ≤ targetSizeMB * 1024 * 1024) :
    compressToTargetSize cf pdfData targetSizeMB = (pdfData, [], []) := by
  simp only [compressToTargetSize]
  rw [if_pos h]

/-- Concrete instantiation of `target_search_short_circuit`: a three-byte
buffer under a 1 MB target comes back unchanged with no attempts and no
events. -/
theorem target_search_short_circuit_witness :
    ((([2, 3, 4] : List Nat).length : ℚ) ≤ 1 * 1024 * 1024) ∧
      compressToTargetSize cfThree [2, 3, 4] 1 = ([2, 3, 4], [], []) :=
  ⟨by norm_num, target_search_short_circuit cfThree [2, 3, 4] 1 (by norm_num)⟩

/-- Claim C4: if none of the 5 attempts of the target-size search
produces a result at or under the byte budget, the search performs all 5
attempts and returns the output of the fifth (last) attempt — not the
smallest output seen across attempts, and not an error. -/
theorem target_search_returns_last_attempt (cf : Compressor)
    (pdfData : List Nat) (targetSizeMB : ℚ)
    (h : targetSizeMB * 1024 * 1024 < (pdfData.length : ℚ))
    (hcf : ∀ q s : ℚ,
      targetSizeMB * 1024 * 1024 < ((cf q s pdfData).1.length : ℚ)) :
    (searchAttempts cf pdfData targetSizeMB).length = 5 ∧
      searchOutput cf pdfData targetSizeMB =
        lastOutput (searchAttempts cf pdfData targetSizeMB) pdfData := by
  simp only [searchAttempts, searchOutput, compressToTargetSize]
  rw [if_neg (not_le.mpr h)]
  exact compressLoop_exhausts cf pdfData _ 5 hcf 4 _ _ _ 0

/-- Concrete instantiation of `target_search_returns_last_attempt`: a
two-byte buffer over a one-byte budget with a compressor that always
returns three bytes never meets the budget, so all 5 attempts run and the
last one's output is returned. -/
theorem target_search_returns_last_attempt_witness :
    ((1 : ℚ) / 1048576) * 1024 * 1024 < (([0, 0] : List Nat).length : ℚ) ∧
      (searchAttempts cfThree [0, 0] (1 / 1048576)).length = 5 ∧
      searchOutput cfThree [0, 0] (1 / 1048576) =
        lastOutput (searchAttempts cfThree [0, 0] (1 / 1048576)) [0, 0] := by
  refine ⟨by norm_num, ?_⟩
  exact target_search_returns_last_attempt cfThree [0, 0] (1 / 1048576)
    (by norm_num) (fun q s => by norm_num [cfThree])

/-- Claim C10: every attempt of the target-size search invokes the
single-pass compressor on the original input bytes, never on a previous
attempt's output; only the (quality, scale) parameters change between
attempts, so no attempt compounds the lossy re-encoding of an earlier
one. -/
theorem target_search_attempts_use_original_input (cf : Compressor)
    (pdfData : List Nat) (targetSizeMB : ℚ) :
    ∀ a ∈ searchAttempts cf pdfData targetSizeMB, a.input = pdfData := by
  simp only [searchAttempts, compressToTargetSize]
  split
  · simp
  · exact compressLoop_inputs cf pdfData _ 5 5 _ _ _ 0

/-- Concrete instantiation of
`target_search_attempts_use_original_input`: a four-byte buffer over a
one-byte budget; the first attempt of the trace carries the original four
bytes as its input. -/
theorem target_search_attempts_use_original_input_witness :
    (⟨0.4, 0.6, [0, 0, 0, 0], [0, 0, 0]⟩ : Attempt) ∈
        searchAttempts cfThree [0, 0, 0, 0] (1 / 1048576) ∧
      (⟨0.4, 0.6, [0, 0, 0, 0], [0, 0, 0]⟩ : Attempt).input = [0, 0, 0, 0] := by
  have hmem : (⟨0.4, 0.6, [0, 0, 0, 0], [0, 0, 0]⟩ : Attempt) ∈
      searchAttempts cfThree [0, 0, 0, 0] (1 / 1048576) :=
    mem_of_head?_eq (by
      simp only [searchAttempts, compressToTargetSize]
      rw [if_neg (by norm_num)]
      rw [show (5 : Nat) = 4 + 1 from rfl, compressLoop_head]
      norm_num [initialParams, cfThree])
  exact ⟨hmem, target_search_attempts_use_original_input cfThree
    [0, 0, 0, 0] (1 / 1048576) _ hmem⟩

/-- `getPageIndices` of a loaded document: the indices 0..n-1 of its
pages, as in pdf-lib's `getPageIndices`. -/
def getPageIndices {Page : Type} (doc : List Page) : List Nat :=
  List.range doc.length

/-- `copyPages` of the accumulator document: look up each requested index
in the source document, in order. -/
def copyPages {Page : Type} (doc : List Page) (idxs : List Nat) : List Page :=
  idxs.filterMap (fun i => doc[i]?)

/-- The merge loop of `mergePdfs`: for each input document in order, copy
all its pages and append them to the accumulator. -/
def mergePdfsGo {Page : Type} : List (List Page) → List Page → List Page
  | [], acc => acc
  | d :: rest, acc => mergePdfsGo rest (acc ++ copyPages d (getPageIndices d))

/-- `mergePdfs` (web pipeline source lines 173-202): documents are
modelled as their page lists; loading and serialisation are external
library calls, so the merge is verified on the loaded page lists. -/
def mergePdfs {Page : Type} (docs : List (List Page)) : List Page :=
  mergePdfsGo docs []

/-- Copying a document at all of its own page indices reproduces the
document. -/
theorem copyPages_getPageIndices {Page : Type} (d : List Page) :
    copyPages d (getPageIndices d) = d := by
  simp only [copyPages, getPageIndices]
  induction d with
  | nil => simp
  | cons a t ih =>
    simp only [List.length_cons, List.range_succ_eq_map, List.filterMap_cons,
      List.getElem?_cons_zero, List.filterMap_map]
    simp only [Function.comp_def, List.getElem?_cons_succ]
    simp [ih]

/-- The merge loop appends the concatenation of the inputs to the
accumulator. -/
theorem mergePdfsGo_eq {Page : Type} :
    ∀ (docs : List (List Page)) (acc : List Page),
      mergePdfsGo docs acc = acc ++ docs.flatten
  | [], acc => by simp [mergePdfsGo]
  | d :: rest, acc => by
    simp only [mergePdfsGo, copyPages_getPageIndices, List.flatten_cons]
    rw [mergePdfsGo_eq rest]
    simp [List.append_assoc]

/-- Claim C5: for every list of valid input documents with page counts
p1..pn, mergePdfs returns a document with exactly p1 + ... + pn pages,
where the pages of input i precede those of input i+1 and each input's
pages keep their internal order (the output is exactly the concatenation
of the inputs' page lists). -/
theorem merge_concatenates_pages {Page : Type} (docs : List (List Page)) :
    mergePdfs docs = docs.flatten ∧
      (mergePdfs docs).length = (docs.map List.length).sum := by
  have h : mergePdfs docs = docs.flatten := by
    simp [mergePdfs, mergePdfsGo_eq]
  exact ⟨h, by simp [h, List.length_flatten]⟩

/-- A source page as the single-pass compressor sees it: its viewport
dimensions at scale 1 (the declared pixel dimensions the rebuilder
receives). -/
structure SrcPage where
  width : ℚ
  height : ℚ
deriving DecidableEq, Repr

/-- A page of the rebuilt document: the page box passed to `addPage` and
the rectangle passed to `drawImage`, together with the embedded image
bytes. -/
structure OutPage where
  pageWidth : ℚ
  pageHeight : ℚ
  drawX : ℚ
  drawY : ℚ
  drawWidth : ℚ
  drawHeight : ℚ
  image : List Nat
deriving DecidableEq, Repr

instance : Inhabited OutPage := ⟨⟨0, 0, 0, 0, 0, 0, []⟩⟩

/-- The page rasteriser (`renderPageToImage`): canvas rendering and JPEG
encoding are browser calls, so it is an oracle taking scale, quality and
the page and either failing or producing the encoded image bytes. -/
abbrev Renderer := ℚ → ℚ → SrcPage → Except String (List Nat)

/-- pdf-lib's `embedJpg`: an oracle that either fails or yields the
embedded image. -/
abbrev Embedder := List Nat → Except String (List Nat)

/-- The body of the per-page `try` block of `compressPdf` (source lines
107-133): render the page, reject an empty image, embed the JPEG, then
add a page of `0.75` times the scale-1 viewport dimensions and draw the
image across its full extent. -/
def processPage (render : Renderer) (embed : Embedder) (scale quality : ℚ)
    (i : Nat) (p : SrcPage) : Except String OutPage :=
  match render scale quality p with
  | .error e => .error e
  | .ok imageBytes =>
    if imageBytes.length = 0 then
      .error ("Page " ++ toString i ++ " rendered as empty image")
    else
      match embed imageBytes with
      | .error e => .error e
      | .ok image =>
        let pageWidth := p.width * 0.75
        let pageHeight := p.height * 0.75
        .ok ⟨pageWidth, pageHeight, 0, 0, pageWidth, pageHeight, image⟩

/-- The page loop of `compressPdf` (source lines 98-139) with 1-based
page counter `i`: emit a rendering progress event, process the page, and
on any per-page failure abort with the page number spliced into the
message. -/
def compressPdfGo (render : Renderer) (embed : Embedder) (scale quality : ℚ)
    (total : Nat) :
    List SrcPage → Nat → Except String (List OutPage) × List CompressionProgress
  | [], _ => (.ok [], [])
  | p :: rest, i =>
    let evt : CompressionProgress := ⟨Stage.rendering, i, total, none⟩
    match processPage render embed scale quality i p with
    | .error e =>
      (.error ("Failed to process page " ++ toString i ++ ": " ++ e), [evt])
    | .ok op =>
      let r := compressPdfGo render embed scale quality total rest (i + 1)
      (r.1.map (fun ops => op :: ops), evt :: r.2)

/-- `compressPdf` (source lines 79-152): run the page loop from page 1
and, on success only, emit the final building event.  The document is
modelled as its list of pages — PDF parsing and serialisation are
external library calls. -/
def compressPdf (render : Renderer) (embed : Embedder) (pages : List SrcPage)
    (quality scale : ℚ) :
    Except String (List OutPage) × List CompressionProgress :=
  let r := compressPdfGo render embed scale quality pages.length pages 1
  match r.1 with
  | .ok ops =>
    (.ok ops, r.2 ++ [⟨Stage.building, pages.length, pages.length, none⟩])
  | .error e => (.error e, r.2)

/-- `convertImageToPdf` (image-utils source lines 89-115): one page whose
box is the image's pixel dimensions times 0.75, with the image drawn at
the page's full extent. -/
def convertImageToPdf (imgWidth imgHeight : ℚ) (imageBytes : List Nat) :
    List OutPage :=
  let pageWidth := imgWidth * 0.75
  let pageHeight := imgHeight * 0.75
  [⟨pageWidth, pageHeight, 0, 0, pageWidth, pageHeight, imageBytes⟩]

/-- Whether a page passes the per-page `try` block: rendering succeeds
with a non-empty image and embedding succeeds. -/
def pageOkB (render : Renderer) (embed : Embedder) (scale quality : ℚ)
    (p : SrcPage) : Bool :=
  match render scale quality p with
  | .error _ => false
  | .ok imageBytes =>
    if imageBytes.length = 0 then false
    else
      match embed imageBytes with
      | .error _ => false
      | .ok _ => true

/-- The page the rebuilder produces for a successfully processed source
page. -/
def rebuiltPage (render : Renderer) (embed : Embedder) (scale quality : ℚ)
    (p : SrcPage) : OutPage :=
  match render scale quality p with
  | .error _ => default
  | .ok imageBytes =>
    match embed imageBytes with
    | .error _ => default
    | .ok image =>
      ⟨p.width * 0.75, p.height * 0.75, 0, 0,
       p.width * 0.75, p.height * 0.75, image⟩

/-- The inner error message of a failing page (empty for a page that
succeeds). -/
def pageErrorMsg (render : Renderer) (embed : Embedder) (scale quality : ℚ)
    (i : Nat) (p : SrcPage) : String :=
  match processPage render embed scale quality i p with
  | .error e => e
  | .ok _ => ""

/-- A page that passes the per-page checks is rebuilt as `rebuiltPage`
describes, independently of its page number. -/
theorem processPage_of_pageOkB (render : Renderer) (embed : Embedder)
    (scale quality : ℚ) (i : Nat) (p : SrcPage)
    (h : pageOkB render embed scale quality p = true) :
    processPage render embed scale quality i p =
      .ok (rebuiltPage render embed scale quality p) := by
  unfold pageOkB at h
  unfold processPage rebuiltPage
  cases hr : render scale quality p with
  | error e => simp [hr] at h
  | ok b =>
    simp only [hr] at h ⊢
    by_cases hb : b.length = 0
    · simp [hb] at h
    · simp only [if_neg hb] at h ⊢
      cases he : embed b with
      | error e => simp [he] at h
      | ok c => simp [he]

/-- A page that fails the per-page checks makes `processPage` return its
inner error message. -/
theorem processPage_fail (render : Renderer) (embed : Embedder)
    (scale quality : ℚ) (i : Nat) (p : SrcPage)
    (h : pageOkB render embed scale quality p = false) :
    processPage render embed scale quality i p =
      .error (pageErrorMsg render embed scale quality i p) := by
  unfold pageOkB at h
  unfold pageErrorMsg processPage
  cases hr : render scale quality p with
  | error e => simp [hr]
  | ok b =>
    simp only [hr] at h ⊢
    by_cases hb : b.length = 0
    · simp [hb]
    · simp only [if_neg hb] at h ⊢
      cases he : embed b with
      | error e => simp [he]
      | ok c => simp [he] at h

/-- When every page passes, the page loop returns the rebuilt pages in
order with one rendering event per page. -/
theorem compressPdfGo_ok (render : Renderer) (embed : Embedder)
    (scale quality : ℚ) (total : Nat) :
    ∀ (pages : List SrcPage) (i : Nat),
      (∀ p ∈ pages, pageOkB render embed scale quality p = true) →
      compressPdfGo render embed scale quality total pages i =
        (.ok (pages.map (rebuiltPage render embed scale quality)),
         (List.range pages.length).map
           (fun j => ⟨Stage.rendering, i + j, total, none⟩))
  | [], i, h => by simp [compressPdfGo]
  | p :: rest, i, h => by
    have hp := h p (List.mem_cons_self _ _)
    have ih := compressPdfGo_ok render embed scale quality total rest (i + 1)
      (fun q hq => h q (List.mem_cons_of_mem _ hq))
    simp only [compressPdfGo, processPage_of_pageOkB _ _ _ _ _ _ hp, ih,
      List.map_cons, Except.map, List.length_cons, List.range_succ_eq_map,
      List.map_map]
    simp [Nat.succ_eq_add_one, Nat.add_assoc, Nat.add_comm, Nat.add_left_comm]

/-- When the pages before position `pre.length + 1` pass and that page
fails, the loop aborts there: it returns the wrapped per-page error
carrying the failing 1-based page number, and the rendering-event trace
stops at the failing page. -/
theorem compressPdfGo_fail (render : Renderer) (embed : Embedder)
    (scale quality : ℚ) (total : Nat) :
    ∀ (pre : List SrcPage) (p : SrcPage) (post : List SrcPage) (i : Nat),
      (∀ pp ∈ pre, pageOkB render embed scale quality pp = true) →
      pageOkB render embed scale quality p = false →
      compressPdfGo render embed scale quality total (pre ++ p :: post) i =
        (.error ("Failed to process page " ++ toString (pre.length + i) ++ ": " ++
           pageErrorMsg render embed scale quality (pre.length + i) p),
         (List.range (pre.length + 1)).map
           (fun j => ⟨Stage.rendering, i + j, total, none⟩))
  | [], p, post, i, hpre, hp => by
    simp only [List.nil_append, compressPdfGo,
      processPage_fail render embed scale quality i p hp]
    rw [show (1 : Nat) = 0 + 1 from rfl, List.range_succ]
    simp
  | pp :: pre, p, post, i, hpre, hp => by
    have h1 := hpre pp (List.mem_cons_self _ _)
    have ih := compressPdfGo_fail render embed scale quality total pre p post
      (i + 1) (fun q hq => hpre q (List.mem_cons_of_mem _ hq)) hp
    simp only [List.cons_append, compressPdfGo, List.append_eq,
      processPage_of_pageOkB _ _ _ _ _ _ h1, ih, Except.map, List.length_cons,
      List.range_succ_eq_map, List.map_cons, List.map_map, Function.comp_def]
    have hidx : pre.length + (i + 1) = pre.length + 1 + i := by omega
    rw [hidx]
    simp [Nat.succ_eq_add_one, Nat.add_assoc, Nat.add_comm, Nat.add_left_comm]

/-- Claim C6: for every input to the document rebuilder, the output has
exactly one page per input image in the same order, and each page's box
in page-coordinate units is the corresponding image's declared pixel
dimensions multiplied by the fixed factor 0.75, with the image drawn at
the page's full extent — for both the single compression pass
(`compressPdf`, whose declared dimensions are the scale-1 viewport) and
the image-to-PDF converter (`convertImageToPdf`). -/
theorem rebuilder_one_page_per_image :
    (∀ (render : Renderer) (embed : Embedder) (pages : List SrcPage)
        (quality scale : ℚ),
      (∀ p ∈ pages, pageOkB render embed scale quality p = true) →
      (compressPdf render embed pages quality scale).1 =
        .ok (pages.map (rebuiltPage render embed scale quality))) ∧
    (∀ (imgWidth imgHeight : ℚ) (imageBytes : List Nat),
      convertImageToPdf imgWidth imgHeight imageBytes =
        [⟨imgWidth * 0.75, imgHeight * 0.75, 0, 0,
          imgWidth * 0.75, imgHeight * 0.75, imageBytes⟩]) := by
  constructor
  · intro render embed pages quality scale h
    simp [compressPdf,
      compressPdfGo_ok render embed scale quality pages.length pages 1 h]
  · intro w h b
    rfl

/-- A renderer oracle that succeeds on every page with a one-byte image. -/
def renderOk : Renderer := fun _ _ _ => .ok [7]

/-- A renderer oracle that fails exactly on pages of width 0. -/
def renderFailZero : Renderer := fun _ _ p =>
  if p.width = 0 then .error "render boom" else .ok [7]

/-- An embedder oracle that accepts every image unchanged. -/
def embedOk : Embedder := fun b => .ok b

/-- Concrete instantiation of `rebuilder_one_page_per_image`: a two-page
document rebuilds to two pages in order with the 0.75-scaled boxes and
full-extent draws, and the image converter produces its single page. -/
theorem rebuilder_one_page_per_image_witness :
    (compressPdf renderOk embedOk [⟨8, 12⟩, ⟨2, 4⟩] 0.5 0.5).1 =
      .ok [⟨8 * 0.75, 12 * 0.75, 0, 0, 8 * 0.75, 12 * 0.75, [7]⟩,
           ⟨2 * 0.75, 4 * 0.75, 0, 0, 2 * 0.75, 4 * 0.75, [7]⟩] ∧
    convertImageToPdf 8 12 [3] =
      [⟨8 * 0.75, 12 * 0.75, 0, 0, 8 * 0.75, 12 * 0.75, [3]⟩] := by
  constructor
  · exact rebuilder_one_page_per_image.1 renderOk embedOk [⟨8, 12⟩, ⟨2, 4⟩]
      0.5 0.5 (by decide)
  · exact rebuilder_one_page_per_image.2 8 12 [3]

/-- Claim C7: if processing any page fails during a single compression
pass, `compressPdf` returns an error whose message carries the 1-based
number of the failing page, no later pages are processed (the
rendering-event trace stops at the failing page), and no output buffer is
returned — the successfully processed earlier pages yield no partial
output. -/
theorem single_pass_aborts_on_page_failure (render : Renderer)
    (embed : Embedder) (quality scale : ℚ) (pre : List SrcPage) (p : SrcPage)
    (post : List SrcPage)
    (hpre : ∀ pp ∈ pre, pageOkB render embed scale quality pp = true)
    (hp : pageOkB render embed scale quality p = false) :
    compressPdf render embed (pre ++ p :: post) quality scale =
      (.error ("Failed to process page " ++ toString (pre.length + 1) ++ ": " ++
         pageErrorMsg render embed scale quality (pre.length + 1) p),
       (List.range (pre.length + 1)).map
         (fun j => ⟨Stage.rendering, 1 + j, (pre ++ p :: post).length, none⟩)) := by
  have h := compressPdfGo_fail render embed scale quality
    (pre ++ p :: post).length pre p post 1 hpre hp
  simp only [List.length_append, List.length_cons] at h
  simp [compressPdf, h]

/-- Concrete instantiation of `single_pass_aborts_on_page_failure`: in a
three-page document whose second page fails to render, the pass aborts
with the message naming page 2, only pages 1 and 2 emit rendering events,
and no output buffer is produced. -/
theorem single_pass_aborts_on_page_failure_witness :
    pageOkB renderFailZero embedOk 0.5 0.5 ⟨0, 9⟩ = false ∧
      compressPdf renderFailZero embedOk [⟨1, 1⟩, ⟨0, 9⟩, ⟨2, 2⟩] 0.5 0.5 =
        (.error "Failed to process page 2: render boom",
         [⟨Stage.rendering, 1, 3, none⟩, ⟨Stage.rendering, 2, 3, none⟩]) := by
  refine ⟨rfl, ?_⟩
  exact single_pass_aborts_on_page_failure renderFailZero embedOk 0.5 0.5
    [⟨1, 1⟩] ⟨0, 9⟩ [⟨2, 2⟩] (by decide) rfl

/-- The phases of the web UI state machine. -/
inductive AppPhase
  | idle
  | merging
  | success
  | compressing
deriving DecidableEq, Repr

/-- The UI state relevant to compression: the current phase and the
stored merged document bytes, mirroring the `appState` and
`mergedPdfData` React state. -/
structure UiState where
  appState : AppPhase
  mergedPdfData : Option (List Nat)
deriving DecidableEq, Repr

/-- `handleCompress` (App source lines 175-222).  The chosen compression
entry point (target-size or preset) is an oracle outcome `run`; the
function returns the final UI state after the handler settles, together
with the alert message shown, if any.  On success the compressed bytes
replace the stored document; on any raised error — including the
empty-output check that throws inside the `try` — the handler catches,
restores the success phase, and leaves `mergedPdfData` untouched. -/
def handleCompress (run : Except String (List Nat)) (s : UiState) :
    UiState × Option String :=
  match s.mergedPdfData with
  | none => (s, some "No PDF data to compress")
  | some _ =>
    match run with
    | .ok compressedPdf =>
      if compressedPdf.length = 0 then
        ({ s with appState := AppPhase.success },
         some ("Failed to compress PDF:\n\n" ++
           "Compression produced an empty file"))
      else
        ({ appState := AppPhase.success,
           mergedPdfData := some compressedPdf }, none)
    | .error e =>
      ({ s with appState := AppPhase.success },
       some ("Failed to compress PDF:\n\n" ++ e))

/-- Claim C9: if a compression entry point raises an error after a
successful merge, the stored merged document bytes are unchanged (the
pre-compression buffer is still available for download) and the error is
surfaced to the user without discarding that state; likewise when the
compressor returns an empty buffer, which the handler raises internally. -/
theorem compress_failure_keeps_merged_data (e : String) (data : List Nat) :
    handleCompress (.error e) ⟨AppPhase.success, some data⟩ =
        (⟨AppPhase.success, some data⟩,
         some ("Failed to compress PDF:\n\n" ++ e)) ∧
      handleCompress (.ok []) ⟨AppPhase.success, some data⟩ =
        (⟨AppPhase.success, some data⟩,
         some ("Failed to compress PDF:\n\n" ++
           "Compression produced an empty file")) :=
  ⟨rfl, rfl⟩

/-- JS `arg.endsWith(".pdf")`: suffix test on the string's character
data. -/
def endsWithPdf (a : String) : Bool := (".pdf").data.isSuffixOf a.data

/-- Outcome of the CLI `main`: print usage and exit with the given code,
exit 1 with a stderr message, or exit 0 printing the resolved output
path. -/
inductive MainResult
  | usage (exitCode : Nat)
  | failure (stderrMsg : String)
  | success (printedPath : String)
deriving DecidableEq, Repr

/-- The CLI argument loop (CLI source lines 75-90): `-o`/`--output`
consumes the next argument as the output path, failing when it is missing
or empty (the `!outputPath` check); arguments ending in `.pdf` are
inputs; anything else is an immediate error.  The accumulated inputs are
kept reversed and restored at the end. -/
def parseArgsLoop : List String → List String → Option String →
    Except String (List String × Option String)
  | [], inputs, out => .ok (inputs.reverse, out)
  | a :: rest, inputs, out =>
    if a = "-o" ∨ a = "--output" then
      match rest with
      | [] => .error "Error: Output path not specified after -o flag"
      | v :: rest2 =>
        if v = "" then .error "Error: Output path not specified after -o flag"
        else parseArgsLoop rest2 inputs (some v)
    else if endsWithPdf a then parseArgsLoop rest (a :: inputs) out
    else .error ("Error: Invalid argument or non-PDF file: " ++ a)

/-- `main` (CLI source lines 64-118), with the filesystem and the
merge-and-write operation as oracles: `fileExists` models `fs.access` on
the resolved path, `mergeRun` models `mergePdfs` returning the output
path it wrote, and `resolve` models `path.resolve`. -/
def cliMain (fileExists : String → Bool)
    (mergeRun : List String → Option String → Except String String)
    (resolve : String → String) (args : List String) : MainResult :=
  if args.length = 0 ∨ args.contains "-h" = true ∨
      args.contains "--help" = true then
    .usage (if args.length = 0 then 1 else 0)
  else
    match parseArgsLoop args [] none with
    | .error m => .failure m
    | .ok (inputs, outputPath) =>
      if inputs.length < 2 then
        .failure "Error: Please provide at least 2 PDF files to merge"
      else
        match inputs.find? (fun p => !(fileExists (resolve p))) with
        | some p => .failure ("Error: File not found: " ++ p)
        | none =>
          match mergeRun inputs outputPath with
          | .ok resultPath => .success (resolve resultPath)
          | .error e => .failure ("Error merging PDFs: " ++ e)

/-- Whether a CLI outcome is an exit-1-with-stderr-message failure. -/
def isFailure : MainResult → Bool
  | .failure _ => true
  | _ => false

/-- Claim-side classification of an argument list, following the claim's
wording: scanning left to right, `-o`/`--output` and the value
immediately following it are acceptable, as is any argument ending in
`.pdf`; anything else is a bad argument. -/
def claimHasBadArg : List String → Bool
  | [] => false
  | a :: rest =>
    if a = "-o" ∨ a = "--output" then
      match rest with
      | [] => false
      | _ :: rest2 => claimHasBadArg rest2
    else if endsWithPdf a then claimHasBadArg rest
    else true

/-- Claim-side count of valid input paths: arguments ending in `.pdf`
that are not consumed as the value of `-o`/`--output`. -/
def claimValidInputs : List String → Nat
  | [] => 0
  | a :: rest =>
    if a = "-o" ∨ a = "--output" then
      match rest with
      | [] => 0
      | _ :: rest2 => claimValidInputs rest2
    else if endsWithPdf a then claimValidInputs rest + 1
    else claimValidInputs rest

/-- One-step unfolding of the argument loop on a cons cell. -/
theorem parseArgsLoop_cons (a : String) (rest acc : List String)
    (out : Option String) :
    parseArgsLoop (a :: rest) acc out =
      (if a = "-o" ∨ a = "--output" then
        match rest with
        | [] => .error "Error: Output path not specified after -o flag"
        | v :: rest2 =>
          if v = "" then .error "Error: Output path not specified after -o flag"
          else parseArgsLoop rest2 acc (some v)
      else if endsWithPdf a then parseArgsLoop rest (a :: acc) out
      else .error ("Error: Invalid argument or non-PDF file: " ++ a)) := by
  rw [parseArgsLoop.eq_def]

/-- One-step unfolding of the claim-side bad-argument scan. -/
theorem claimHasBadArg_cons (a : String) (rest : List String) :
    claimHasBadArg (a :: rest) =
      (if a = "-o" ∨ a = "--output" then
        match rest with
        | [] => false
        | _ :: rest2 => claimHasBadArg rest2
      else if endsWithPdf a then claimHasBadArg rest
      else true) := by
  rw [claimHasBadArg.eq_def]

/-- One-step unfolding of the claim-side valid-input count. -/
theorem claimValidInputs_cons (a : String) (rest : List String) :
    claimValidInputs (a :: rest) =
      (if a = "-o" ∨ a = "--output" then
        match rest with
        | [] => 0
        | _ :: rest2 => claimValidInputs rest2
      else if endsWithPdf a then claimValidInputs rest + 1
      else claimValidInputs rest) := by
  rw [claimValidInputs.eq_def]

/-- A successful parse means no bad argument was present and the parsed
inputs are exactly the claim-side valid input paths (on top of the
accumulator). -/
theorem parseArgsLoop_ok_spec :
    ∀ (args acc : List String) (out : Option String) (inputs : List String)
      (o : Option String),
      parseArgsLoop args acc out = .ok (inputs, o) →
      claimHasBadArg args = false ∧
        inputs.length = acc.length + claimValidInputs args
  | [], acc, out, inputs, o => by
    intro h
    simp only [parseArgsLoop, Except.ok.injEq, Prod.mk.injEq] at h
    obtain ⟨h1, h2⟩ := h
    subst h1
    simp [claimHasBadArg, claimValidInputs]
  | a :: rest, acc, out, inputs, o => by
    intro h
    rw [parseArgsLoop_cons] at h
    rw [claimHasBadArg_cons, claimValidInputs_cons]
    by_cases ha : a = "-o" ∨ a = "--output"
    · rw [if_pos ha] at h
      rw [if_pos ha, if_pos ha]
      cases rest with
      | nil => exact Except.noConfusion h
      | cons v rest2 =>
        dsimp only at h ⊢
        by_cases hv : v = ""
        · rw [if_pos hv] at h
          exact Except.noConfusion h
        · rw [if_neg hv] at h
          exact parseArgsLoop_ok_spec rest2 acc (some v) inputs o h
    · rw [if_neg ha] at h
      rw [if_neg ha, if_neg ha]
      by_cases hp : endsWithPdf a = true
      · rw [if_pos hp] at h
        rw [if_pos hp, if_pos hp]
        have ih := parseArgsLoop_ok_spec rest (a :: acc) out inputs o h
        refine ⟨ih.1, ?_⟩
        rw [ih.2]
        simp only [List.length_cons]
        omega
      · rw [if_neg hp] at h
        exact Except.noConfusion h

/-- Claim C8, amended at the empty argument list.  For every CLI argument
list: if it contains `-h` or `--help` the program prints usage and exits
with status 0; an empty argument list prints usage and exits with status
1 without a stderr message; if it is non-empty and free of `-h`/`--help`
and contains an argument that is not `-o`/`--output`, not the value
following `-o`/`--output`, and does not end in `.pdf`, or yields fewer
than two valid input paths, the program exits with status 1 and writes a
message to stderr; on success it exits 0 and prints the resolved output
path. -/
theorem cli_main_contract :
    (∀ (fe : String → Bool)
        (mr : List String → Option String → Except String String)
        (rv : String → String) (args : List String),
        args.contains "-h" = true ∨ args.contains "--help" = true →
        cliMain fe mr rv args = .usage 0) ∧
    (∀ (fe : String → Bool)
        (mr : List String → Option String → Except String String)
        (rv : String → String), cliMain fe mr rv [] = .usage 1) ∧
    (∀ (fe : String → Bool)
        (mr : List String → Option String → Except String String)
        (rv : String → String) (args : List String),
        0 < args.length →
        args.contains "-h" = false →
        args.contains "--help" = false →
        claimHasBadArg args = true ∨ claimValidInputs args < 2 →
        isFailure (cliMain fe mr rv args) = true) ∧
    (∀ (fe : String → Bool)
        (mr : List String → Option String → Except String String)
        (rv : String → String) (args inputs : List String)
        (out : Option String) (rp : String),
        args.contains "-h" = false →
        args.contains "--help" = false →
        parseArgsLoop args [] none = .ok (inputs, out) →
        2 ≤ inputs.length →
        inputs.all (fun p => fe (rv p)) = true →
        mr inputs out = .ok rp →
        cliMain fe mr rv args = .success (rv rp)) := by
  refine ⟨?_, ?_, ?_, ?_⟩
  · intro fe mr rv args h
    have hne : args ≠ [] := by
      rintro rfl
      rcases h with h | h <;> simp at h
    have hlen : args.length ≠ 0 := fun h0 => hne (List.length_eq_zero.mp h0)
    unfold cliMain
    rw [if_pos (Or.inr (by tauto)), if_neg hlen]
  · intro fe mr rv
    rfl
  · intro fe mr rv args hlen h1 h2 hbad
    unfold cliMain
    rw [if_neg (by
      rintro (h0 | h0 | h0)
      · omega
      · rw [h1] at h0
        exact Bool.noConfusion h0
      · rw [h2] at h0
        exact Bool.noConfusion h0)]
    cases hp : parseArgsLoop args [] none with
    | error m => rfl
    | ok pr =>
      obtain ⟨inputs, out⟩ := pr
      have spec := parseArgsLoop_ok_spec args [] none inputs out hp
      have spec2 : inputs.length = claimValidInputs args := by
        simpa using spec.2
      have hlt : inputs.length < 2 := by
        rcases hbad with hb | hb
        · rw [spec.1] at hb
          exact Bool.noConfusion hb
        · omega
      dsimp only
      rw [if_pos hlt]
      rfl
  · intro fe mr rv args inputs out rp h1 h2 hp hlen2 hall hmr
    have hne : args.length ≠ 0 := by
      intro h0
      have h00 : args = [] := List.length_eq_zero.mp h0
      subst h00
      simp only [parseArgsLoop, Except.ok.injEq, Prod.mk.injEq] at hp
      obtain ⟨hpi, hpo⟩ := hp
      rw [← hpi] at hlen2
      simp at hlen2
    unfold cliMain
    rw [if_neg (by
      rintro (h0 | h0 | h0)
      · exact hne h0
      · rw [h1] at h0
        exact Bool.noConfusion h0
      · rw [h2] at h0
        exact Bool.noConfusion h0)]
    rw [hp]
    dsimp only
    rw [if_neg (not_lt.mpr hlen2)]
    have hfind : inputs.find? (fun p => !(fe (rv p))) = none := by
      rw [List.find?_eq_none]
      intro x hx
      have hx2 := List.all_eq_true.mp hall x hx
      simp [hx2]
    rw [hfind, hmr]

/-- A filesystem oracle on which every path exists. -/
def fsAll : String → Bool := fun _ => true

/-- A merge oracle that always succeeds, writing to the requested output
path (or a generated default). -/
def mergeRunOk : List String → Option String → Except String String :=
  fun _ out => .ok (out.getD "merged-x.pdf")

/-- A path-resolution oracle that leaves paths unchanged. -/
def resolveId : String → String := fun p => p

/-- Counterexample to claim C8 as stated: the empty argument list yields
fewer than two valid input paths, so the claim requires an exit with
status 1 and a stderr message; the program does exit with status 1, but
prints usage to stdout and writes nothing to stderr (the outcome is not a
stderr failure). -/
theorem cli_empty_args_usage_not_stderr :
    cliMain fsAll mergeRunOk resolveId [] = .usage 1 ∧
      isFailure (cliMain fsAll mergeRunOk resolveId []) = false ∧
      claimValidInputs [] < 2 := ⟨rfl, rfl, by decide⟩

/-- Concrete instantiation of `cli_main_contract`: a single input path
exits with status 1 and a stderr message (the spec scenario), and a
two-input invocation with an explicit output succeeds, exiting 0 and
printing the resolved output path. -/
theorem cli_main_contract_witness :
    0 < (["a.pdf"] : List String).length ∧
      (["a.pdf"] : List String).contains "-h" = false ∧
      (["a.pdf"] : List String).contains "--help" = false ∧
      claimValidInputs ["a.pdf"] < 2 ∧
      isFailure (cliMain fsAll mergeRunOk resolveId ["a.pdf"]) = true ∧
      cliMain fsAll mergeRunOk resolveId ["a.pdf", "b.pdf", "-o", "out.pdf"] =
        .success "out.pdf" := by
  refine ⟨by decide, by decide, by decide, by decide, ?_, ?_⟩
  · exact cli_main_contract.2.2.1 fsAll mergeRunOk resolveId ["a.pdf"]
      (by decide) (by decide) (by decide) (Or.inr (by decide))
  · exact cli_main_contract.2.2.2 fsAll mergeRunOk resolveId
      ["a.pdf", "b.pdf", "-o", "out.pdf"] ["a.pdf", "b.pdf"] (some "out.pdf")
      "out.pdf" (by decide) (by decide) rfl (by decide) (by decide) rfl
